import Mathlib

/-!
Verification of the `SphericalHarmonics` adapter
(`src/spex/angular/spherical_harmonics.py`) against its specification.

The source is a thin adapter: `__init__` stores `max_angular`, computes the
layout table `m_per_l = [2*l+1 for l in range(max_angular+1)]`, constructs the
external evaluator handle `Sph(l_max=max_angular, normalized=True)` and the
serialized mapping `spec = {"max_angular": max_angular}`; `forward(R)` is the
single expression `return self.sph.compute(R)`.

We embed the adapter faithfully over `Int` (Python integers), with Python
`range` semantics, and keep the external evaluator abstract wherever source
behaviour does not depend on it.  Where a claim depends on behaviour that is
not in the source tree (the evaluator output layout, the serialization mixin)
the corresponding definition is modelled from the specification text and says
so in its doc comment.
-/

/-- Python built-in `range(n)` for an integer argument `n`, as the list of
integers `0, 1, ..., n-1`; empty when `n ≤ 0`, exactly as in Python. -/
def pyRange (n : Int) : List Int :=
  (List.range n.toNat).map (fun k : Nat => (k : Int))

/-- Embedding of line 36 of the source:
`[2 * l + 1 for l in range(max_angular + 1)]`. -/
def mPerL (max_angular : Int) : List Int :=
  (pyRange (max_angular + 1)).map (fun l => 2 * l + 1)

/-- Handle of the external evaluator, as constructed on line 38 of the source:
`Sph(l_max=self.max_angular, normalized=True)`.  The handle records the two
configuration arguments the adapter passes. -/
structure Sph where
  l_max : Int
  normalized : Bool
deriving DecidableEq, Repr

/-- Serialized configuration mapping, line 40 of the source:
`self.spec = {"max_angular": self.max_angular}`.  The mapping has exactly the
one key `max_angular`, so it is a one-field record. -/
structure SpecMap where
  max_angular : Int
deriving DecidableEq, Repr

/-- State of a constructed `SphericalHarmonics` instance: exactly the four
attributes assigned in `__init__` (lines 34, 36, 38, 40); the class has no
other fields. -/
structure SphericalHarmonics where
  max_angular : Int
  m_per_l : List Int
  sph : Sph
  spec : SpecMap
deriving DecidableEq, Repr

/-- Embedding of `__init__`, additionally recording the list of calls made to
the external evaluator constructor (argument pairs `(l_max, normalized)`).
The body performs the four assignments in source order and contains exactly
one evaluator-constructor call, on line 38. -/
def SphericalHarmonics.initWithCalls (max_angular : Int) :
    SphericalHarmonics × List (Int × Bool) :=
  (⟨max_angular, mPerL max_angular, ⟨max_angular, true⟩, ⟨max_angular⟩⟩,
   [(max_angular, true)])

/-- Embedding of `__init__` (lines 31-40): stores `max_angular`, the layout
table, the evaluator handle configured with `l_max = max_angular` and
`normalized = True`, and the serialized mapping. -/
def SphericalHarmonics.init (max_angular : Int) : SphericalHarmonics :=
  (SphericalHarmonics.initWithCalls max_angular).1

/-- Embedding of `__init__` with a fallible external evaluator constructor
`ctor`.  The adapter body itself performs no validation of `max_angular`: it
computes the layout table (total, `range` of a non-positive bound is empty)
and then forwards `max_angular` unchanged to the external constructor; the
only possible failure of construction is a failure of `ctor`, which
propagates. -/
def SphericalHarmonics.initE {ε : Type} (ctor : Int → Bool → Except ε Sph)
    (max_angular : Int) : Except ε SphericalHarmonics :=
  (ctor max_angular true).map
    (fun h => ⟨max_angular, mPerL max_angular, h, ⟨max_angular⟩⟩)

/-- Embedding of `forward` (lines 42-55): the body is the single expression
`return self.sph.compute(R)`.  The external evaluator's `compute` method is a
parameter, since its behaviour lives outside the source tree; the adapter
applies it to its stored handle and the untouched input. -/
def SphericalHarmonics.forward {α β : Type} (compute : Sph → α → β)
    (self : SphericalHarmonics) (R : α) : β :=
  compute self.sph R

/-- Bare evaluator call `evaluate(handle, vectors)`, written from the
specification's words for the upstream collaborator interface, to be compared
with `forward` for the refinement claim. -/
def evaluateCall {α β : Type} (compute : Sph → α → β) (handle : Sph)
    (R : α) : β :=
  compute handle R

/-- State-passing form of `forward`: the method body contains no assignment to
any field of `self`, so the post-state is the receiver unchanged, paired with
the returned value. -/
def SphericalHarmonics.forwardSt {α β : Type} (compute : Sph → α → β)
    (self : SphericalHarmonics) (R : α) : β × SphericalHarmonics :=
  (compute self.sph R, self)

/-- Modelled from the spec: the `Specable` mixin (`spex.engine`, repository
code not under `src/`) reconstructs an instance from the serialized mapping by
passing its fields to the constructor ("sufficient to recreate an equivalent
instance"). -/
def SphericalHarmonics.from_spec (s : SpecMap) : SphericalHarmonics :=
  SphericalHarmonics.init s.max_angular

/-- Concatenation of a list of lists (the flattening of the per-degree blocks
into one feature row). -/
def flattenL {α : Type} : List (List α) → List α
  | [] => []
  | b :: bs => b ++ flattenL bs

/-- Splitting a list into consecutive segments of the given sizes, the segment
operation the spec intends for `torch.split(row, m_per_l)`. -/
def splitSizes {α : Type} : List Nat → List α → List (List α)
  | [], _ => []
  | n :: ns, xs => xs.take n :: splitSizes ns (xs.drop n)

/-- Modelled from the spec: the column index layout of the external
evaluator's output, grouped by degree — for `l = 0..l_max` the block of the
`2*l+1` pairs `(l, m)` with `m = -l..+l` in increasing order. -/
def lmBlocks (l_max : Nat) : List (List (Int × Int)) :=
  (List.range (l_max + 1)).map
    (fun l : Nat => (List.range (2 * l + 1)).map
      (fun k : Nat => ((l : Int), (k : Int) - (l : Int))))

/-- Modelled from the spec: the flattened `(l, m)` column ordering
`(l=0 m=0) (l=1 m=-1) (l=1 m=0) (l=1 m=+1) (l=2 m=-2) ...`. -/
def lmList (l_max : Nat) : List (Int × Int) :=
  flattenL (lmBlocks l_max)

/-- Modelled from the spec: the external evaluator operation
`evaluate(handle, vectors) -> features` (`sphericart` is not part of this
repository).  Given a family `Y` of real spherical harmonics indexed by
`(l, m)`, each input row `r` is mapped to the row of values `Y l m r` in the
flattened `(l, m)` column order, for degrees `0..l_max`. -/
def Sph.compute {β : Type} (Y : Int → Int → ℚ × ℚ × ℚ → β) (h : Sph)
    (R : List (ℚ × ℚ × ℚ)) : List (List β) :=
  R.map (fun r => (lmList h.l_max.toNat).map (fun p => Y p.1 p.2 r))

/- Helper lemmas about the layout table. -/

theorem mPerL_nat (n : Nat) :
    mPerL (n : Int) = (List.range (n + 1)).map (fun l : Nat => 2 * (l : Int) + 1) := by
  have h : ((n : Int) + 1).toNat = n + 1 := by omega
  rw [mPerL, pyRange, h, List.map_map]
  rfl

theorem mPerL_toNat (n : Nat) :
    (mPerL (n : Int)).map Int.toNat = (List.range (n + 1)).map (fun l => 2 * l + 1) := by
  have h : ∀ l : Nat, (2 * (l : Int) + 1).toNat = 2 * l + 1 := by intro l; omega
  simp [mPerL_nat, List.map_map, Function.comp, h]

theorem sum_odd_int (n : Nat) :
    ((List.range n).map (fun l : Nat => 2 * (l : Int) + 1)).sum = (n : Int) ^ 2 := by
  induction n with
  | zero => simp
  | succ m ih =>
      rw [List.range_succ, List.map_append, List.sum_append, ih]
      simp only [List.map_cons, List.map_nil, List.sum_cons, List.sum_nil]
      push_cast
      ring

theorem mPerL_sum_nat (n : Nat) :
    (mPerL (n : Int)).sum = ((n : Int) + 1) ^ 2 := by
  rw [mPerL_nat, sum_odd_int]
  push_cast
  ring

/- Helper lemmas about flattening and splitting. -/

theorem length_flattenL {α : Type} :
    ∀ bs : List (List α), (flattenL bs).length = (bs.map List.length).sum := by
  intro bs
  induction bs with
  | nil => rfl
  | cons b bs ih => simp [flattenL, ih]

theorem map_flattenL {α β : Type} (f : α → β) :
    ∀ bs : List (List α), (flattenL bs).map f = flattenL (bs.map (List.map f)) := by
  intro bs
  induction bs with
  | nil => rfl
  | cons b bs ih => simp [flattenL, ih]

theorem splitSizes_flattenL {α : Type} :
    ∀ bs : List (List α), splitSizes (bs.map List.length) (flattenL bs) = bs := by
  intro bs
  induction bs with
  | nil => rfl
  | cons b bs ih =>
      simp only [flattenL, splitSizes, List.map_cons]
      rw [List.take_left, List.drop_left, ih]

theorem lmBlocks_lengths (n : Nat) :
    (lmBlocks n).map List.length = (List.range (n + 1)).map (fun l => 2 * l + 1) := by
  simp [lmBlocks, List.map_map, Function.comp]

theorem lmList_length (n : Nat) :
    (lmList n).length = ((List.range (n + 1)).map (fun l => 2 * l + 1)).sum := by
  rw [lmList, length_flattenL, lmBlocks_lengths]

/-- Claim C1: for every integer `max_angular ≥ 0`, construction produces an
`m_per_l` table of length `max_angular + 1` whose entry at index `l` equals
`2*l + 1`; in particular `max_angular = 2` gives `m_per_l = [1, 3, 5]`, and
the table stored on the constructed object is exactly this table. -/
theorem m_per_l_table_correct (ma : Int) (hma : 0 ≤ ma) :
    ((mPerL ma).length : Int) = ma + 1
    ∧ (∀ (l : Nat) (h : l < (mPerL ma).length), (mPerL ma).get ⟨l, h⟩ = 2 * (l : Int) + 1)
    ∧ mPerL 2 = [1, 3, 5]
    ∧ (SphericalHarmonics.init ma).m_per_l = mPerL ma := by
  obtain ⟨n, rfl⟩ : ∃ n : Nat, ma = (n : Int) := ⟨ma.toNat, (Int.toNat_of_nonneg hma).symm⟩
  refine ⟨?_, ?_, by decide, rfl⟩
  · rw [mPerL_nat]
    simp
  · intro l h
    rw [List.get_eq_getElem]
    simp [mPerL_nat]

/-- Witness for C1 at `max_angular = 2`. -/
theorem m_per_l_table_correct_witness : mPerL 2 = [1, 3, 5] :=
  (m_per_l_table_correct 2 (by decide)).2.2.1

/-- Claim C10: for every integer `max_angular ≥ 0`, the total flattened output
width `sum(m_per_l)` equals `(max_angular + 1)^2`. -/
theorem m_per_l_sum_square (ma : Int) (hma : 0 ≤ ma) :
    (mPerL ma).sum = (ma + 1) ^ 2 := by
  obtain ⟨n, rfl⟩ : ∃ n : Nat, ma = (n : Int) := ⟨ma.toNat, (Int.toNat_of_nonneg hma).symm⟩
  exact mPerL_sum_nat n

/-- Witness for C10 at `max_angular = 3`. -/
theorem m_per_l_sum_square_witness : (mPerL 3).sum = (3 + 1) ^ 2 :=
  m_per_l_sum_square 3 (by decide)

/-- Counterexample to claim C2 as stated: with `max_angular = -1` the adapter
constructor raises nothing of its own — the layout comprehension evaluates to
the empty list and `-1` is forwarded unchanged to the external evaluator
constructor, so with an accepting external constructor the construction
succeeds and yields a fully formed object; no `InvalidConfiguration` exists in
the source. -/
theorem initE_neg_one_succeeds :
    SphericalHarmonics.initE
        (fun (l : Int) (nrm : Bool) => (Except.ok ⟨l, nrm⟩ : Except String Sph)) (-1)
      = Except.ok ⟨-1, [], ⟨-1, true⟩, ⟨-1⟩⟩ := rfl

/-- Claim C2 as amended: construction performs no adapter-side validation of
`max_angular`; with `max_angular = -1` the layout table computes to the empty
list and `-1` is passed unchanged to the external evaluator constructor, whose
result alone decides whether construction fails (its error propagating
unmodified, producing no object) or succeeds. -/
theorem initE_no_adapter_validation {ε : Type} (ctor : Int → Bool → Except ε Sph) :
    SphericalHarmonics.initE ctor (-1)
      = (ctor (-1) true).map (fun h => ⟨-1, [], h, ⟨-1⟩⟩) := rfl

/-- Witness for the amended C2 at a concrete external constructor. -/
theorem initE_no_adapter_validation_witness :
    SphericalHarmonics.initE
        (fun (l : Int) (nrm : Bool) => (Except.ok ⟨l, nrm⟩ : Except Unit Sph)) (-1)
      = (((fun (l : Int) (nrm : Bool) => (Except.ok ⟨l, nrm⟩ : Except Unit Sph)) (-1) true).map
          (fun h => ⟨-1, [], h, ⟨-1⟩⟩)) :=
  initE_no_adapter_validation _

/-- Counterexample to claim C3 as stated: `forward` contains no shape check, so
an input of shape `[5, 2]` does not make the adapter fail — with an evaluator
that accepts it, the call returns normally; no `InvalidInput` exists in the
source. -/
theorem forward_shape_5_2_no_error :
    (SphericalHarmonics.init 2).forward
        (fun (_ : Sph) (r : List (List ℚ)) => (Except.ok r : Except String (List (List ℚ))))
        (List.replicate 5 [0, 0])
      = Except.ok (List.replicate 5 [0, 0]) := rfl

/-- Claim C3 as amended: `forward` performs no shape validation; an input of
shape `[5, 2]` is passed unchanged to the external evaluator, so the call's
outcome — including any shape-rejection error — is exactly the evaluator's
own, and the adapter itself raises nothing. -/
theorem forward_no_shape_validation {β ε : Type}
    (ev : Sph → List (List ℚ) → Except ε β) (self : SphericalHarmonics)
    (R : List (List ℚ)) (_hlen : R.length = 5) (_hrow : ∀ r ∈ R, r.length = 2) :
    self.forward ev R = ev self.sph R := rfl

/-- Witness for the amended C3 at a concrete `[5, 2]` input. -/
theorem forward_no_shape_validation_witness :
    (SphericalHarmonics.init 2).forward
        (fun (_ : Sph) (r : List (List ℚ)) => (Except.ok r : Except Unit (List (List ℚ))))
        (List.replicate 5 [0, 0])
      = (fun (_ : Sph) (r : List (List ℚ)) => (Except.ok r : Except Unit (List (List ℚ))))
          (SphericalHarmonics.init 2).sph (List.replicate 5 [0, 0]) :=
  forward_no_shape_validation _ _ _ (by decide) (by decide)

/-- Claim C5: `forward` passes the input tensor to the external evaluator and
returns its result with no intermediate transformation — for every input `R`,
`forward(R)` equals the bare evaluator call `evaluate(handle, R)`. -/
theorem forward_is_bare_evaluator_call {α β : Type} (compute : Sph → α → β)
    (self : SphericalHarmonics) (R : α) :
    self.forward compute R = evaluateCall compute self.sph R := rfl

/-- Witness for C5 at a concrete evaluator and input. -/
theorem forward_is_bare_evaluator_call_witness :
    (SphericalHarmonics.init 2).forward (fun (s : Sph) (x : ℚ) => (s.l_max, x)) 5
      = evaluateCall (fun (s : Sph) (x : ℚ) => (s.l_max, x))
          (SphericalHarmonics.init 2).sph 5 :=
  forward_is_bare_evaluator_call _ _ _

/-- Claim C6: at construction the evaluator handle is created exactly once,
configured with degree `max_angular` and normalized output enabled. -/
theorem init_constructs_evaluator_once (ma : Int) :
    (SphericalHarmonics.initWithCalls ma).2 = [(ma, true)]
    ∧ (SphericalHarmonics.initWithCalls ma).2.length = 1
    ∧ (SphericalHarmonics.init ma).sph.l_max = ma
    ∧ (SphericalHarmonics.init ma).sph.normalized = true :=
  ⟨rfl, rfl, rfl, rfl⟩

/-- Witness for C6 at `max_angular = 4`. -/
theorem init_constructs_evaluator_once_witness :
    (SphericalHarmonics.initWithCalls 4).2 = [(4, true)]
    ∧ (SphericalHarmonics.initWithCalls 4).2.length = 1
    ∧ (SphericalHarmonics.init 4).sph.l_max = 4
    ∧ (SphericalHarmonics.init 4).sph.normalized = true :=
  init_constructs_evaluator_once 4

/-- Claim C7: the serialized configuration is exactly the mapping
`{max_angular: int}`, and reconstructing from it yields an equivalent
instance: equal `max_angular`, equal `m_per_l`, equal serialized
configuration, equal object, and identical behaviour of `forward`. -/
theorem spec_roundtrip_equivalent (ma : Int) :
    (SphericalHarmonics.init ma).spec = ⟨ma⟩
    ∧ (SphericalHarmonics.from_spec (SphericalHarmonics.init ma).spec).max_angular
        = (SphericalHarmonics.init ma).max_angular
    ∧ (SphericalHarmonics.from_spec (SphericalHarmonics.init ma).spec).m_per_l
        = (SphericalHarmonics.init ma).m_per_l
    ∧ (SphericalHarmonics.from_spec (SphericalHarmonics.init ma).spec).spec
        = (SphericalHarmonics.init ma).spec
    ∧ SphericalHarmonics.from_spec (SphericalHarmonics.init ma).spec
        = SphericalHarmonics.init ma
    ∧ ∀ (α β : Type) (compute : Sph → α → β) (R : α),
        (SphericalHarmonics.from_spec (SphericalHarmonics.init ma).spec).forward compute R
          = (SphericalHarmonics.init ma).forward compute R :=
  ⟨rfl, rfl, rfl, rfl, rfl, fun _ _ _ _ => rfl⟩

/-- Witness for C7 at `max_angular = 5`. -/
theorem spec_roundtrip_equivalent_witness :
    (SphericalHarmonics.init 5).spec = ⟨5⟩ :=
  (spec_roundtrip_equivalent 5).1

/-- Claim C8: every call to `forward` leaves every field of the object
unchanged (its state-passing form returns the receiver as post-state, while
the returned value is the evaluator's result), and the object consists of
exactly the four fields set at construction — two objects agreeing on
`max_angular`, `m_per_l`, `sph` and `spec` are equal, so no other state
exists. -/
theorem forward_preserves_state {α β : Type} (compute : Sph → α → β)
    (self : SphericalHarmonics) (R : α) :
    (self.forwardSt compute R).2 = self
    ∧ (self.forwardSt compute R).2.max_angular = self.max_angular
    ∧ (self.forwardSt compute R).2.m_per_l = self.m_per_l
    ∧ (self.forwardSt compute R).2.sph = self.sph
    ∧ (self.forwardSt compute R).2.spec = self.spec
    ∧ (self.forwardSt compute R).1 = compute self.sph R
    ∧ ∀ a b : SphericalHarmonics,
        a.max_angular = b.max_angular → a.m_per_l = b.m_per_l →
        a.sph = b.sph → a.spec = b.spec → a = b := by
  refine ⟨rfl, rfl, rfl, rfl, rfl, rfl, ?_⟩
  intro a b h1 h2 h3 h4
  cases a
  cases b
  simp only [SphericalHarmonics.mk.injEq]
  exact ⟨h1, h2, h3, h4⟩

/-- Witness for C8 at a concrete evaluator and input. -/
theorem forward_preserves_state_witness :
    ((SphericalHarmonics.init 1).forwardSt (fun (s : Sph) (_ : Unit) => s.l_max) ()).2
      = SphericalHarmonics.init 1 :=
  (forward_preserves_state _ _ _).1

/-- Claim C9: any failure of the external evaluator during `forward` is
propagated to the caller unmodified — `forward` returns exactly the
evaluator's result, so an evaluator error `e` surfaces as exactly that error,
never retried, translated or swallowed. -/
theorem forward_propagates_evaluator_error {α β ε : Type}
    (ev : Sph → α → Except ε β) (self : SphericalHarmonics) (R : α) :
    self.forward ev R = ev self.sph R
    ∧ ∀ e : ε, ev self.sph R = Except.error e → self.forward ev R = Except.error e :=
  ⟨rfl, fun _ h => h⟩

/-- Witness for C9 at a concrete failing evaluator. -/
theorem forward_propagates_evaluator_error_witness :
    (SphericalHarmonics.init 0).forward
        (fun (_ : Sph) (_ : List ℚ) => (Except.error 7 : Except Nat (List ℚ))) []
      = Except.error 7 :=
  (forward_propagates_evaluator_error _ _ _).2 7 rfl

/- Helper lemmas for the output block structure. -/

theorem sum_odd_nat (n : Nat) :
    ((List.range n).map (fun l => 2 * l + 1)).sum = n ^ 2 := by
  induction n with
  | zero => rfl
  | succ m ih =>
      rw [List.range_succ, List.map_append, List.sum_append, ih]
      simp only [List.map_cons, List.map_nil, List.sum_cons, List.sum_nil]
      ring

theorem lmList_length_sq (n : Nat) : (lmList n).length = (n + 1) ^ 2 := by
  rw [lmList_length, sum_odd_nat]

theorem splitSizes_mPerL_row {β : Type} (n : Nat) (f : Int × Int → β) :
    splitSizes ((mPerL (n : Int)).map Int.toNat) ((lmList n).map f)
      = (lmBlocks n).map (List.map f) := by
  rw [mPerL_toNat, ← lmBlocks_lengths, lmList, map_flattenL]
  have h : (lmBlocks n).map List.length
      = ((lmBlocks n).map (List.map f)).map List.length := by
    simp [List.map_map, Function.comp, List.length_map]
  rw [h, splitSizes_flattenL]

/-- Claim C4: for every valid input of shape `[N, 3]`, the output of `forward`
has `N` rows of width `sum(m_per_l)`, the columns are ordered by increasing
degree `l` and, within a degree, by increasing order `m` from `-l` to `+l`
(each row is the evaluator family `Y` mapped over the flattened `(l, m)` list
in that order), and splitting a row by the `m_per_l` segment sizes yields
`max_angular + 1` blocks whose `l`-th block is the degree-`l` band of width
`2*l + 1`. -/
theorem forward_output_shape_and_blocks
    (Y : Int → Int → ℚ × ℚ × ℚ → ℚ) (ma : Int) (hma : 0 ≤ ma)
    (R : List (ℚ × ℚ × ℚ)) :
    ((SphericalHarmonics.init ma).forward (Sph.compute Y) R).length = R.length
    ∧ (∀ row ∈ (SphericalHarmonics.init ma).forward (Sph.compute Y) R,
        ((row.length : Int) = (SphericalHarmonics.init ma).m_per_l.sum))
    ∧ ((SphericalHarmonics.init ma).forward (Sph.compute Y) R
        = R.map (fun r => (lmList ma.toNat).map (fun p => Y p.1 p.2 r)))
    ∧ (∀ r : ℚ × ℚ × ℚ,
        splitSizes ((SphericalHarmonics.init ma).m_per_l.map Int.toNat)
            ((lmList ma.toNat).map (fun p => Y p.1 p.2 r))
          = (List.range (ma.toNat + 1)).map
              (fun l : Nat => (List.range (2 * l + 1)).map
                (fun k : Nat => Y (l : Int) ((k : Int) - (l : Int)) r)))
    ∧ (∀ r : ℚ × ℚ × ℚ,
        (splitSizes ((SphericalHarmonics.init ma).m_per_l.map Int.toNat)
            ((lmList ma.toNat).map (fun p => Y p.1 p.2 r))).length = ma.toNat + 1
        ∧ (splitSizes ((SphericalHarmonics.init ma).m_per_l.map Int.toNat)
            ((lmList ma.toNat).map (fun p => Y p.1 p.2 r))).map List.length
          = (List.range (ma.toNat + 1)).map (fun l => 2 * l + 1)) := by
  obtain ⟨n, rfl⟩ : ∃ n : Nat, ma = (n : Int) := ⟨ma.toNat, (Int.toNat_of_nonneg hma).symm⟩
  have htn : ((n : Int)).toNat = n := by omega
  have hmp : (SphericalHarmonics.init (n : Int)).m_per_l = mPerL (n : Int) := rfl
  refine ⟨?_, ?_, ?_, ?_, ?_⟩
  · simp [SphericalHarmonics.forward, Sph.compute]
  · intro row hrow
    have hrow' : row ∈ R.map
        (fun r => (lmList ((n : Int)).toNat).map (fun p => Y p.1 p.2 r)) := hrow
    obtain ⟨r, _, rfl⟩ := List.mem_map.1 hrow'
    rw [hmp, List.length_map, htn, lmList_length_sq, mPerL_sum_nat]
    push_cast
    ring
  · rfl
  · intro r
    rw [hmp, htn, splitSizes_mPerL_row n]
    simp [lmBlocks, List.map_map, Function.comp]
  · intro r
    rw [hmp, htn, splitSizes_mPerL_row n]
    constructor
    · simp [lmBlocks]
    · have hlen : List.map List.length
          (List.map (List.map fun p => Y p.1 p.2 r) (lmBlocks n))
          = List.map List.length (lmBlocks n) := by
        simp [List.map_map, Function.comp, List.length_map]
      rw [hlen, lmBlocks_lengths]

/-- Witness for C4 at `max_angular = 1` and a concrete two-row input. -/
theorem forward_output_shape_and_blocks_witness :
    ((SphericalHarmonics.init 1).forward
        (Sph.compute (fun _ _ _ => (0 : ℚ)))
        [(1, 0, 0), (0, 1, 0)]).length
      = ([(1, 0, 0), (0, 1, 0)] : List (ℚ × ℚ × ℚ)).length :=
  (forward_output_shape_and_blocks (fun _ _ _ => (0 : ℚ)) 1 (by decide)
    [(1, 0, 0), (0, 1, 0)]).1
